import Mathlib

set_option maxRecDepth 4000

/-!
Shallow embedding of the Kesgrave CMS browser patch scripts.

The repository is a collection of small browser-side scripts that poll the
DOM, fetch JSON from a few REST endpoints and mutate matched elements.  This
file embeds the pure content of those scripts: string transformations
(date fixing, breadcrumb rewriting), the regular-expression matching they
perform, the pairing of DOM elements with fetched records, the polling-loop
structure, and the guarded, idempotent-or-not DOM mutations.  Strings are
modelled as `List Char`; optional JSON fields as `Option (List Char)` with
explicit JavaScript truthiness; DOM elements as structures holding the style
properties and children the scripts touch.
-/

/-- The characters of a string literal, the form used for embedded JS strings. -/
def lc (s : String) : List Char := s.toList

/-- The single-quote character (used inside CSS url() values built by the scripts). -/
def sQuote : Char := Char.ofNat 39

/-- ASCII whitespace as recognised by JavaScript trim() and the regex class backslash-s. -/
def isWsp (c : Char) : Bool :=
  c = ' ' || c = Char.ofNat 9 || c = Char.ofNat 10 || c = Char.ofNat 13 ||
  c = Char.ofNat 11 || c = Char.ofNat 12

/-- The ten ASCII digits, the regex class backslash-d. -/
def digitChars : List Char := ['0', '1', '2', '3', '4', '5', '6', '7', '8', '9']

/-- Whether a character is an ASCII digit. -/
def isDigitCh (c : Char) : Bool := digitChars.contains c

/-- The regex word class backslash-w: ASCII letters, digits and underscore. -/
def isWordCh (c : Char) : Bool := c.isAlphanum || c = '_'

/-- JavaScript String.prototype.trim on the ASCII whitespace set. -/
def jsTrim (s : List Char) : List Char :=
  ((s.dropWhile isWsp).reverse.dropWhile isWsp).reverse

/-- JavaScript truthiness of an optional string field: undefined and the
empty string are falsy, every other string is truthy. -/
def jsTruthyS : Option (List Char) → Bool
  | none => false
  | some s => !s.isEmpty

/-- JavaScript `v || d` on an optional string field. -/
def jsOrS (v : Option (List Char)) (d : List Char) : List Char :=
  if jsTruthyS v then v.getD [] else d

/-- JavaScript template-literal interpolation of an optional field:
an absent field prints as the text "undefined". -/
def interpS : Option (List Char) → List Char
  | none => lc "undefined"
  | some s => s

/-- Numeric value of an ASCII digit character. -/
def digitVal (c : Char) : Nat := c.toNat - 48

/-- JavaScript parseInt on a string of decimal digits. -/
def parseDigits (s : List Char) : Nat := s.foldl (fun a c => 10 * a + digitVal c) 0

/-- Decimal rendering with structural fuel (the fuel only needs to exceed the
number of digits, so `natToDigits` passes n + 1). -/
def natToDigitsAux : Nat → Nat → List Char
  | _, 0 => []
  | n, fuel + 1 =>
    if n < 10 then [Char.ofNat (48 + n)]
    else natToDigitsAux (n / 10) fuel ++ [Char.ofNat (48 + n % 10)]

/-- JavaScript Number.prototype.toString for a natural number (decimal digits). -/
def natToDigits (n : Nat) : List Char := natToDigitsAux n (n + 1)

/-! ## The date pattern of meeting_page_dates.js

The script tests each matched element's trimmed text against the anchored
regex `^(Monday|...|Sunday)\s+(\d{1,2}\s+\w+\s+\d{4})$` and then applies the
replacement `$1, $2` to the untrimmed text.  Because every character class of
the pattern is disjoint from its neighbour (word characters are never
whitespace), the backtracking regex is equivalent to the greedy, deterministic
matcher below, which returns the two capture groups on success. -/

/-- Strip a literal prefix from a character list, returning the remainder. -/
def stripPrefixCh : List Char → List Char → Option (List Char)
  | [], s => some s
  | _ :: _, [] => none
  | p :: ps, c :: cs => if p = c then stripPrefixCh ps cs else none

/-- First alternative of a literal alternation that is a prefix of the input,
with the remainder of the input. -/
def firstPrefixMatch : List (List Char) → List Char → Option (List Char × List Char)
  | [], _ => none
  | w :: ws, s =>
    match stripPrefixCh w s with
    | some r => some (w, r)
    | none => firstPrefixMatch ws s

/-- The seven weekday alternatives of the date pattern, in source order. -/
def weekdayNames : List (List Char) :=
  [lc "Monday", lc "Tuesday", lc "Wednesday", lc "Thursday", lc "Friday",
   lc "Saturday", lc "Sunday"]

/-- Greedy match of one nonempty character-class run (the regex tokens
backslash-s+ and backslash-w+, whose following token can never consume a
character of the class, so greediness loses no match). -/
def reqRun (p : Char → Bool) (s : List Char) : Option (List Char × List Char) :=
  if (s.takeWhile p).isEmpty then none else some (s.takeWhile p, s.dropWhile p)

/-- The token backslash-d{1,2} followed by whitespace: the digit run must have
length one or two (a longer run can never be completed, because after taking
one or two digits the next character is still a digit, not whitespace). -/
def reqDigits12 (s : List Char) : Option (List Char × List Char) :=
  if (s.takeWhile isDigitCh).length = 0 then none
  else if 2 < (s.takeWhile isDigitCh).length then none
  else some (s.takeWhile isDigitCh, s.dropWhile isDigitCh)

/-- The anchored final token backslash-d{4}$: the whole remaining input must be
exactly four digits. -/
def reqYear4 (s : List Char) : Option (List Char) :=
  if s.length = 4 && s.all isDigitCh then some s else none

/-- Anchored match of the date pattern against a whole string.  On success the
result is the pair of capture groups: the weekday name, and the day-month-year
text with its original internal spacing. -/
def dateMatch (s : List Char) : Option (List Char × List Char) :=
  match firstPrefixMatch weekdayNames s with
  | none => none
  | some (w, r1) =>
    match reqRun isWsp r1 with
    | none => none
    | some (_sp1, r2) =>
      match reqDigits12 r2 with
      | none => none
      | some (d, r3) =>
        match reqRun isWsp r3 with
        | none => none
        | some (sp2, r4) =>
          match reqRun isWordCh r4 with
          | none => none
          | some (mo, r5) =>
            match reqRun isWsp r5 with
            | none => none
            | some (sp3, r6) =>
              match reqYear4 r6 with
              | none => none
              | some y => some (w, d ++ sp2 ++ mo ++ sp3 ++ y)

/-- One element's text under fixDateFormatting: the pattern is tested against
the trimmed text, but the anchored replacement `$1, $2` is applied to the
untrimmed text (a replacement whose pattern does not match returns the string
unchanged). -/
def fixDateText (t : List Char) : List Char :=
  if (dateMatch (jsTrim t)).isSome then
    match dateMatch t with
    | some (w, g) => w ++ lc ", " ++ g
    | none => t
  else t

/-- fixDateFormatting over the texts of all elements matched by the date
selector, in document order. -/
def fixDateFormatting (texts : List (List Char)) : List (List Char) :=
  texts.map fixDateText

/-! ## Breadcrumb rewriting (meeting page fixes + breadcrumb fixes script)

fixBreadcrumbLinks selects `nav a[href^="/content/"]`, skips `/content`
itself, rewrites the five known category names to anchors on the content hub,
and sends any other category link with a nonempty final path segment to
`/content`. -/

/-- The slash character, the separator of JavaScript `href.split("/")`. -/
def slashCh : Char := '/'

/-- JavaScript String.prototype.split on the slash separator: n separators
yield n+1 (possibly empty) parts. -/
def jsSplitSlash : List Char → List (List Char)
  | [] => [[]]
  | c :: cs =>
    match jsSplitSlash cs with
    | [] => [[]]
    | h :: t => if c = slashCh then [] :: h :: t else (c :: h) :: t

/-- Whether one string occurs inside another (String.prototype.includes). -/
def containsSub (pat : List Char) : List Char → Bool
  | [] => pat.isEmpty
  | s@(_ :: t) => pat.isPrefixOf s || containsSub pat t

/-- The category-name-to-section map hard-coded in fixBreadcrumbLinks. -/
def categoryMap (name : List Char) : Option (List Char) :=
  if name = lc "Financial Information" then some (lc "category-5")
  else if name = lc "Policies and Important Documents" then some (lc "category-1")
  else if name = lc "Business Plan" then some (lc "category-7")
  else if name = lc "Council Information" then some (lc "category-2")
  else if name = lc "Reporting Problems" then some (lc "category-4")
  else none

/-- An anchor element as the breadcrumb fix sees it: whether it sits inside a
nav element, its href attribute, and its text content. -/
structure AnchorEl where
  inNav : Bool
  href : List Char
  text : List Char
  deriving DecidableEq

/-- One anchor under fixBreadcrumbLinks.  The outer condition is the CSS
selector `nav a[href^="/content/"]`; the inner one is the script's own guard;
then the known-category map is consulted, and otherwise the link is sent to
`/content` when the final segment of `href.split("/")` is truthy. -/
def fixBreadcrumbLink (a : AnchorEl) : AnchorEl :=
  if a.inNav && (lc "/content/").isPrefixOf a.href then
    if !(a.href == lc "/content") && containsSub (lc "/content/") a.href then
      match categoryMap (jsTrim a.text) with
      | some anchor => { a with href := lc "/content#" ++ anchor }
      | none =>
        if !((jsSplitSlash a.href).getLastD []).isEmpty then { a with href := lc "/content" }
        else a
    else a
  else a

/-- fixBreadcrumbLinks over every anchor of the page. -/
def fixBreadcrumbLinks (anchors : List AnchorEl) : List AnchorEl :=
  anchors.map fixBreadcrumbLink

/-! ## Index-wise pairing of DOM elements with fetched records

Every apply function of the scripts walks the matched elements with forEach
and reads `data[index]`; an element whose index has no record is skipped with
a console warning.  `applyPairwise` is that shared shape. -/

/-- Pair element i with record i; elements beyond the data are unchanged. -/
def applyPairwise (f : α → β → α) : List α → List β → List α
  | [], _ => []
  | e :: es, [] => e :: applyPairwise f es []
  | e :: es, d :: ds => f e d :: applyPairwise f es ds

/-! ## The slider fix (slider-fix.js, frontend version)

The script waits for `.slide` elements with a 50-attempt cap, fetches
/api/homepage/slides, and applies slide data index-wise: background image
styles, and an introduction paragraph and a button that are appended only if
the slide content does not already contain them. -/

/-- A slide record of /api/homepage/slides. -/
structure Slide where
  image : Option (List Char)
  introduction : Option (List Char)
  button_text : Option (List Char)
  button_url : Option (List Char)
  open_method : Option (List Char)
  title : Option (List Char)
  deriving DecidableEq

/-- The anchor element the script creates for a slide button. -/
structure ButtonEl where
  text : List Char
  href : List Char
  target : List Char
  rel : List Char
  deriving DecidableEq

/-- The `.slide-content` container: the script only tests for and appends the
`.slide-introduction` paragraph and the `.slide-button` anchor. -/
structure SlideContentEl where
  intro : Option (List Char)
  button : Option ButtonEl
  deriving DecidableEq

/-- The inline background style properties the script assigns on a slide. -/
structure SlideStyleEl where
  backgroundImage : List Char
  backgroundSize : List Char
  backgroundPosition : List Char
  backgroundRepeat : List Char
  deriving DecidableEq

/-- A `.slide` element: its style and its optional `.slide-content` child. -/
structure SlideEl where
  style : SlideStyleEl
  content : Option SlideContentEl
  deriving DecidableEq

/-- The backgroundImage value the slider fix assigns (a dark gradient over the
slide's image url). -/
def sliderBgImage (img : List Char) : List Char :=
  lc "linear-gradient(rgba(0, 0, 0, 0.4), rgba(0, 0, 0, 0.4)), url(" ++
    [sQuote] ++ img ++ [sQuote] ++ lc ")"

/-- The button the script builds from a slide record: target and rel are set
only when open_method is exactly the string new_tab. -/
def mkSlideButton (d : Slide) : ButtonEl :=
  { text := d.button_text.getD []
    href := d.button_url.getD []
    target := if d.open_method == some (lc "new_tab") then lc "_blank" else []
    rel := if d.open_method == some (lc "new_tab") then lc "noopener noreferrer" else [] }

/-- One slide under applySlideData: set the background styles when the record
has an image, then append introduction and button into `.slide-content`, each
only if truthy in the record and not already present in the DOM. -/
def applySlide (e : SlideEl) (d : Slide) : SlideEl :=
  let e1 :=
    if jsTruthyS d.image then
      { e with style :=
          { backgroundImage := sliderBgImage (d.image.getD [])
            backgroundSize := lc "cover"
            backgroundPosition := lc "center"
            backgroundRepeat := lc "no-repeat" } }
    else e
  match e1.content with
  | none => e1
  | some c =>
    let c1 := if jsTruthyS d.introduction && c.intro.isNone
              then { c with intro := some (d.introduction.getD []) } else c
    let c2 := if jsTruthyS d.button_text && jsTruthyS d.button_url && c1.button.isNone
              then { c1 with button := some (mkSlideButton d) } else c1
    { e1 with content := some c2 }

/-- applySlideData: pair slide element i with slide record i. -/
def applySlideData (slides : List SlideEl) (slidesData : List Slide) : List SlideEl :=
  applyPairwise applySlide slides slidesData

/-- The outcome of the fetch of /api/homepage/slides as fetchSlidesData sees
it: the promise can reject, the response can be non-OK (the script then throws
into its own catch), the body can fail to parse as JSON, or an array of slide
records arrives. -/
inductive SlidesFetch where
  | fetchReject : SlidesFetch
  | respNotOk : Nat → SlidesFetch
  | jsonParseFail : SlidesFetch
  | ok : List Slide → SlidesFetch
  deriving DecidableEq

/-- fetchSlidesData: every failure is caught, logged and turned into the
empty array; a parsed body is returned as is. -/
def fetchSlidesData : SlidesFetch → List Slide
  | .ok data => data
  | _ => []

/-- Whether the fetch outcome is one of the three failure cases. -/
def slidesFetchFailed : SlidesFetch → Bool
  | .ok _ => false
  | _ => true

/-- initSliderFix after waitForSlides has resolved: with no slides, or with no
slide data, the function returns before applySlideData and the DOM keeps its
state; otherwise the data is applied. -/
def initSliderFix (domSlides : List SlideEl) (f : SlidesFetch) : List SlideEl :=
  if domSlides.length = 0 then domSlides
  else if (fetchSlidesData f).length = 0 then domSlides
  else applySlideData domSlides (fetchSlidesData f)

/-! ## Polling loops (waitForSlides / waitForEvents)

A polling loop queries the DOM once per attempt.  The DOM over time is a
stream: the collection the query would return at each attempt number.  The
capped loops of slider-fix.js (50 attempts) and of the v5/frontend events fix
(20 retries) resolve with the empty collection once the cap is passed; the
loops of the earlier scripts retry forever, modelled with explicit fuel:
`waitLoopNoCap stream a fuel = none` means the loop has not resolved within
`fuel` attempts. -/

/-- A capped polling loop: query at attempts a, a+1, ... while attempts
remain; once they run out, resolve the empty collection. -/
def waitLoopCapped (stream : Nat → List α) : Nat → Nat → List α
  | _, 0 => []
  | a, r + 1 => if 0 < (stream a).length then stream a else waitLoopCapped stream (a + 1) r

/-- waitForSlides of slider-fix.js: at most 50 attempts starting at attempt 1,
then resolve the empty collection. -/
def waitForSlidesRun (stream : Nat → List α) : List α :=
  waitLoopCapped stream 1 50

/-- waitForEvents of the v5/frontend events fix: at most 20 retries starting
at attempt 1, then resolve the empty collection. -/
def waitForEventsRun (stream : Nat → List α) : List α :=
  waitLoopCapped stream 1 20

/-- An uncapped polling loop (waitForSlides of the older slider fix inside
meeting_page_dates.js, and waitForEvents of the v1 v2 v3 events fixes),
observed for `fuel` attempts: none means it is still polling. -/
def waitLoopNoCap (stream : Nat → List α) : Nat → Nat → Option (List α)
  | _, 0 => none
  | a, r + 1 => if 0 < (stream a).length then some (stream a) else waitLoopNoCap stream (a + 1) r

/-- A DOM in which the awaited elements never appear. -/
def emptyStream : Nat → List Nat := fun _ => []

/-- The uncapped loop never resolves when the awaited elements never appear,
no matter how many attempts are observed. -/
def uncappedPollingNeverResolves : Prop :=
  ∀ fuel start, waitLoopNoCap emptyStream start fuel = none

/-! ## Events data (/api/events, /api/homepage/events) -/

/-- A category object nested in an event record. -/
structure EventCategory where
  name : List Char
  color : Option (List Char)
  icon : Option (List Char)
  deriving DecidableEq

/-- An event record as the scripts read it. -/
structure Event where
  id : Nat
  title : List Char
  image : Option (List Char)
  featured : Bool
  is_past : Bool
  category : Option EventCategory
  location : Option (List Char)
  date : Option (List Char)
  description : Option (List Char)
  deriving DecidableEq

/-- Uppercasing of a tag text (String.prototype.toUpperCase). -/
def jsToUpper (s : List Char) : List Char := s.map Char.toUpper

/-- Lowercasing of a title for the category heuristics. -/
def jsToLower (s : List Char) : List Char := s.map Char.toLower

/-! ## Month/year detection and query building (events fix v5 / frontend)

getCurrentMonthYear scans the texts of the heading elements its selectors
return, in order, for the first substring matching `(\w+)\s+(\d{4})`, and
falls back to the current date.  fetchEventsData maps the month word to a
number, compares the pair with the current month, and appends the month, year
and include_past query parameters. -/

/-- Try the pattern word-run, whitespace-run, four digits at this exact
position (the classes are pairwise disjoint, so greedy runs are forced). -/
def monthYearAt (s : List Char) : Option (List Char × List Char) :=
  let w := s.takeWhile isWordCh
  let r1 := s.dropWhile isWordCh
  let sp := r1.takeWhile isWsp
  let r2 := r1.dropWhile isWsp
  if w.isEmpty || sp.isEmpty then none
  else
    match r2 with
    | a :: b :: c :: d :: _ =>
      if isDigitCh a && isDigitCh b && isDigitCh c && isDigitCh d
      then some (w, [a, b, c, d]) else none
    | _ => none

/-- Leftmost match of `(\w+)\s+(\d{4})` in one text: scan every start
position in order. -/
def findMonthYear : List Char → Option (List Char × List Char)
  | [] => none
  | c :: cs =>
    match monthYearAt (c :: cs) with
    | some r => some r
    | none => findMonthYear cs

/-- First candidate text containing a month/year match, in the order the
selector loop visits the elements. -/
def detectMonthYear : List (List Char) → Option (List Char × List Char)
  | [] => none
  | t :: ts =>
    match findMonthYear t with
    | some r => some r
    | none => detectMonthYear ts

/-- The month names, in calendar order, as the fallback list `months`. -/
def monthName : Nat → List Char
  | 1 => lc "January"
  | 2 => lc "February"
  | 3 => lc "March"
  | 4 => lc "April"
  | 5 => lc "May"
  | 6 => lc "June"
  | 7 => lc "July"
  | 8 => lc "August"
  | 9 => lc "September"
  | 10 => lc "October"
  | 11 => lc "November"
  | 12 => lc "December"
  | _ => []

/-- The monthMap object of fetchEventsData: month name to month number. -/
def monthPairs : List (List Char × Nat) :=
  [(lc "January", 1), (lc "February", 2), (lc "March", 3), (lc "April", 4),
   (lc "May", 5), (lc "June", 6), (lc "July", 7), (lc "August", 8),
   (lc "September", 9), (lc "October", 10), (lc "November", 11), (lc "December", 12)]

/-- Property lookup `monthMap[month]`: the month number, or undefined. -/
def monthMap (s : List Char) : Option Nat :=
  (monthPairs.find? (fun p => p.1 == s)).map (fun p => p.2)

/-- The current date, as getMonth()+1 and getFullYear() deliver it. -/
structure SimpleDate where
  month : Nat
  year : Nat
  deriving DecidableEq

/-- getCurrentMonthYear: the detected month word and year text, or the
current month name and year rendered to decimal on fallback. -/
def getCurrentMonthYear (cands : List (List Char)) (today : SimpleDate) :
    List Char × List Char :=
  (detectMonthYear cands).getD (monthName today.month, natToDigits today.year)

/-- The query parameters fetchEventsData appends to /api/events. -/
structure EventsQuery where
  month : Option Nat
  year : Option (List Char)
  includePast : Bool
  deriving DecidableEq

/-- The URL construction written in the remainder of fetchEventsData's try
block: `if (monthNum)` appends month, `if (year)` appends year, and
include_past=true is appended exactly when the pair is a past month (an
unknown month word leaves monthNum undefined, which compares as false).
This remainder is dead code: execution never reaches it, because the
statement before it throws (see assignCurrentMonthThrows); the definition
records what the function was written to send. -/
def buildEventsQuery (cands : List (List Char)) (today : SimpleDate) : EventsQuery :=
  let my := getCurrentMonthYear cands today
  let monthNum := monthMap my.1
  let isPastMonth :=
    (parseDigits my.2 < today.year) ||
    (parseDigits my.2 == today.year &&
      (match monthNum with
       | some m => decide (m < today.month)
       | none => false))
  { month :=
      match monthNum with
      | some m => if m = 0 then none else some m
      | none => none
    year := if my.2.isEmpty then none else some my.2
    includePast := isPastMonth }

/-- The response of /api/events: `data.events || []`. -/
def eventsOfResponse : Option (List Event) → List Event
  | some evs => evs
  | none => []

/-- Whether the write `currentMonth = month` near the top of fetchEventsData's
try block throws.  Although an outer `let currentMonth` exists, the same try
block later declares `const currentMonth` (and `const currentYear`), so under
block scoping the write resolves to that inner const binding, which is still
in its temporal dead zone at the point of the write: the statement throws a
ReferenceError on every call, in both cited versions of the function. -/
def assignCurrentMonthThrows : Bool := true

/-- The observable outcome of one fetchEventsData call: the request it issued
against /api/events, if any, and the array it returned. -/
structure FetchEventsOutcome where
  request : Option EventsQuery
  result : List Event
  deriving DecidableEq

/-- fetchEventsData as executed: getCurrentMonthYear is read first, then the
write `currentMonth = month` throws into the catch, which logs the error and
returns the empty array, so no request is ever issued.  The else branch is
the dead remainder of the try block: the query it would have built and the
`data.events || []` it would have returned. -/
def fetchEventsDataRun (cands : List (List Char)) (today : SimpleDate)
    (response : Option (List Event)) : FetchEventsOutcome :=
  if assignCurrentMonthThrows then
    { request := none, result := [] }
  else
    { request := some (buildEventsQuery cands today)
      result := eventsOfResponse response }

/-- The backslash character. -/
def backslashCh : Char := Char.ofNat 92

/-- The heading pattern of the frontend variant of getCurrentMonthYear
(events-fix.js), whose source doubles the backslashes: the regex there is a
literal backslash, then w+, then a literal backslash, s+, a literal backslash
and dddd.  Greedy runs are forced because no repeated character equals the
backslash that follows it. -/
def brokenPatternAt (s : List Char) : Bool :=
  match s with
  | b1 :: r1 =>
    b1 == backslashCh &&
    (let ws := r1.takeWhile (fun c => c == 'w')
     let r2 := r1.dropWhile (fun c => c == 'w')
     !ws.isEmpty &&
     match r2 with
     | b2 :: r3 =>
       b2 == backslashCh &&
       (let ss := r3.takeWhile (fun c => c == 's')
        let r4 := r3.dropWhile (fun c => c == 's')
        !ss.isEmpty &&
        match r4 with
        | b3 :: d1 :: d2 :: d3 :: d4 :: _ =>
          b3 == backslashCh && d1 == 'd' && d2 == 'd' && d3 == 'd' && d4 == 'd'
        | _ => false)
     | [] => false)
  | [] => false

/-- Leftmost search for the doubled-backslash pattern in a heading text. -/
def brokenFindMonthYear : List Char → Bool
  | [] => false
  | s@(_ :: t) => brokenPatternAt s || brokenFindMonthYear t

/-! ## Event card enhancement, v5 / frontend (events fix v5) -/

/-- A tag or badge div created inside an image container: its class, its
text, its background color and the optional icon element prepended into it. -/
structure TagEl where
  cls : List Char
  text : List Char
  color : List Char
  icon : Option (List Char)
  deriving DecidableEq

/-- The image container the v5 script builds for one event card. -/
structure ContainerV5 where
  background : List Char
  backgroundImage : List Char
  backgroundSize : List Char
  backgroundPosition : List Char
  backgroundRepeat : List Char
  filter : List Char
  children : List TagEl
  deriving DecidableEq

/-- An event card as the v5 script sees it: the `.event-image-container-v5`
children it owns (all removed and rebuilt on each run) and the rest of the
card, which it never touches. -/
structure EventElV5 where
  containersV5 : List ContainerV5
  rest : List Char
  deriving DecidableEq

/-- The v5 backgroundImage value (dark gradient over the event image url). -/
def v5BgImage (img : List Char) : List Char :=
  lc "linear-gradient(rgba(0, 0, 0, 0.3), rgba(0, 0, 0, 0.3)), url(" ++
    [sQuote] ++ img ++ [sQuote] ++ lc ")"

/-- The past-event badge of the v5 script. -/
def pastEventBadgeV5 : TagEl :=
  { cls := lc "event-past-badge-v5", text := lc "PAST EVENT",
    color := lc "rgba(0, 0, 0, 0.8)", icon := none }

/-- addCategoryTag of the v5 script: uppercased name, and the category color
with the fixed fallback when the color is absent or empty. -/
def addCategoryTagV5 (category : EventCategory) : TagEl :=
  { cls := lc "event-category-tag-v5", text := jsToUpper category.name,
    color := jsOrS category.color (lc "#3498db"), icon := none }

/-- addFeaturedTag of the v5 script. -/
def featuredTagV5 : TagEl :=
  { cls := lc "event-featured-tag-v5", text := lc "FEATURED",
    color := lc "#f39c12", icon := none }

/-- The image container built for one event record: gradient placeholder
always; image styles, past styling and badges only when the record has an
image, in the source order past badge, category tag, featured tag. -/
def buildContainerV5 (d : Event) : ContainerV5 :=
  let base : ContainerV5 :=
    { background := lc "linear-gradient(135deg, #667eea 0%, #764ba2 100%)"
      backgroundImage := [], backgroundSize := [], backgroundPosition := []
      backgroundRepeat := [], filter := [], children := [] }
  if jsTruthyS d.image then
    { base with
      backgroundImage := v5BgImage (d.image.getD [])
      backgroundSize := lc "cover"
      backgroundPosition := lc "center"
      backgroundRepeat := lc "no-repeat"
      filter := if d.is_past then lc "grayscale(100%)" else []
      children :=
        (if d.is_past then [pastEventBadgeV5] else []) ++
        (match d.category with
         | some c => [addCategoryTagV5 c]
         | none => []) ++
        (if d.featured then [featuredTagV5] else []) }
  else base

/-- One event card under applyEventData (v5): remove every existing v5
container, build a fresh one and insert it as first child. -/
def applyEventOneV5 (e : EventElV5) (d : Event) : EventElV5 :=
  { e with containersV5 := [buildContainerV5 d] }

/-- applyEventData of the v5/frontend events fix: pair card i with record i. -/
def applyEventData (eventElements : List EventElV5) (eventsData : List Event) :
    List EventElV5 :=
  applyPairwise applyEventOneV5 eventElements eventsData

/-! ## Event card enhancement, v3 (events-fix-v3.js) -/

/-- A card container as the v3 script mutates it: background styles, border
and shadow, and at most one `.event-category-tag` child. -/
structure EventElV3 where
  backgroundImage : List Char
  backgroundSize : List Char
  backgroundPosition : List Char
  backgroundRepeat : List Char
  position : List Char
  border : List Char
  boxShadow : List Char
  categoryTag : Option TagEl
  deriving DecidableEq

/-- The v3 backgroundImage value (light overlay over the event image url). -/
def v3BgImage (img : List Char) : List Char :=
  lc "linear-gradient(rgba(255, 255, 255, 0.85), rgba(255, 255, 255, 0.85)), url(" ++
    [sQuote] ++ img ++ [sQuote] ++ lc ")"

/-- The category tag the v2/v3 scripts derive from the event title. -/
def titleCategoryTag (cls : List Char) (title : List Char) : TagEl :=
  let t := jsToLower title
  if containsSub (lc "meeting") t || containsSub (lc "council") t then
    { cls := cls, text := lc "Council", color := lc "#3498db", icon := none }
  else if containsSub (lc "market") t || containsSub (lc "fair") t then
    { cls := cls, text := lc "Community", color := lc "#e74c3c", icon := none }
  else
    { cls := cls, text := lc "Event", color := lc "#2ecc71", icon := none }

/-- One card under applyEventImages (v3): background styles when the record
has an image, then a category tag appended only if none exists yet. -/
def applyEventImageV3 (e : EventElV3) (d : Event) : EventElV3 :=
  let e1 :=
    if jsTruthyS d.image then
      { e with
        backgroundImage := v3BgImage (d.image.getD [])
        backgroundSize := lc "cover"
        backgroundPosition := lc "center"
        backgroundRepeat := lc "no-repeat"
        position := lc "relative"
        border := lc "1px solid rgba(0,0,0,0.1)"
        boxShadow := lc "0 2px 8px rgba(0,0,0,0.1)" }
    else e
  if e1.categoryTag.isNone then
    { e1 with categoryTag := some (titleCategoryTag (lc "event-category-tag") d.title) }
  else e1

/-- applyEventImages of events-fix-v3.js: pair card i with record i. -/
def applyEventImagesV3 (elems : List EventElV3) (data : List Event) : List EventElV3 :=
  applyPairwise applyEventImageV3 elems data

/-! ## Event card enhancement, v2 (events fix v2) -/

/-- A card as the v2 script mutates it: background styles, and the category
tag divs appended to it (appendChild adds a new one on every run). -/
structure EventElV2 where
  backgroundImage : List Char
  backgroundSize : List Char
  backgroundPosition : List Char
  backgroundRepeat : List Char
  position : List Char
  tags : List TagEl
  deriving DecidableEq

/-- The v2 backgroundImage value (strong white overlay over the image url). -/
def v2BgImage (img : List Char) : List Char :=
  lc "linear-gradient(rgba(255, 255, 255, 0.9), rgba(255, 255, 255, 0.9)), url(" ++
    [sQuote] ++ img ++ [sQuote] ++ lc ")"

/-- One card under applyEventImages (v2): skipped without a record image;
otherwise the background styles are set and a fresh category tag is appended
unconditionally. -/
def applyEventImageV2 (e : EventElV2) (d : Event) : EventElV2 :=
  if jsTruthyS d.image then
    { e with
      backgroundImage := v2BgImage (d.image.getD [])
      backgroundSize := lc "cover"
      backgroundPosition := lc "center"
      backgroundRepeat := lc "no-repeat"
      position := lc "relative"
      tags := e.tags ++ [titleCategoryTag [] d.title] }
  else e

/-- applyEventImages of the v2 events fix: pair card i with record i. -/
def applyEventImagesV2 (elems : List EventElV2) (data : List Event) : List EventElV2 :=
  applyPairwise applyEventImageV2 elems data

/-! ## Optional-field defaulting in the renderers (events-fix.js versions and
the modal scripts) -/

/-- addCategoryTag of events-fix.js (original version): the tag text is the
raw category name and the background color is the template interpolation of
category.color, with no fallback. -/
def addCategoryTagV1 (category : EventCategory) : TagEl :=
  { cls := lc "event-category-tag", text := category.name,
    color := interpS category.color, icon := category.icon }

/-- The category tag of the frontend events fix: uppercased name and the
category color with the fixed fallback. -/
def frontendCategoryTag (category : EventCategory) : TagEl :=
  { cls := [], text := jsToUpper category.name,
    color := jsOrS category.color (lc "#007bff"), icon := none }

/-- The Date cell of the modal's enhanced details: the formatted date when
the field is truthy, Date TBA otherwise. -/
def modalDateCell (fmt : List Char → List Char) (date : Option (List Char)) : List Char :=
  if jsTruthyS date then fmt (date.getD []) else lc "Date TBA"

/-- The Location cell of the modal's enhanced details. -/
def modalLocationCell (location : Option (List Char)) : List Char :=
  jsOrS location (lc "Location TBA")

/-! ## Modal enhancement (event-modal-fix.js) -/

/-- The parts of a modal enhanceModal reads and writes. -/
structure ModalContent where
  title : Option (List Char)
  image : Option (List Char)
  hasTags : Bool
  hasSections : Bool
  deriving DecidableEq

/-- A modal element: the data-enhanced attribute, the listeners registered on
its behalf, and its content. -/
structure ModalEl where
  dataEnhanced : Bool
  keydownListeners : Nat
  closeHandlers : Nat
  content : ModalContent
  deriving DecidableEq

/-- The enhancement body: with an extracted title and fetched event data, add
the image (if not already present), the tags and the content sections. -/
def enhanceModalBody (c : ModalContent) (fetched : Option Event) : ModalContent :=
  match c.title, fetched with
  | some _, some ev =>
    { c with
      image := if jsTruthyS ev.image && c.image.isNone then ev.image else c.image
      hasTags := true
      hasSections := true }
  | _, _ => c

/-- enhanceModal: return immediately when the modal already carries the
data-enhanced attribute; otherwise set it, register the escape-key and close
listeners, and enhance the content. -/
def enhanceModal (m : ModalEl) (fetched : Option Event) : ModalEl :=
  if m.dataEnhanced then m
  else
    { dataEnhanced := true
      keydownListeners := m.keydownListeners + 1
      closeHandlers := m.closeHandlers + 1
      content := enhanceModalBody m.content fetched }

/-! ## Concrete sample inputs for witnesses and counterexamples -/

/-- A date text with leading whitespace, as indented markup produces it. -/
def paddedDateText : List Char := lc " Monday 30 June 2025"

/-- A bare event card for the v2 events fix. -/
def sampleCardV2 : EventElV2 :=
  { backgroundImage := [], backgroundSize := [], backgroundPosition := []
    backgroundRepeat := [], position := [], tags := [] }

/-- An event record with an image whose title matches the fair heuristic. -/
def sampleFairEvent : Event :=
  { id := 1, title := lc "Summer Fair", image := some (lc "x.jpg"), featured := false,
    is_past := false, category := none, location := none, date := none, description := none }

/-- A category object with no color field. -/
def colorlessCategory : EventCategory :=
  { name := lc "Community", color := none, icon := none }

/-- A slide element with empty styles and no content container. -/
def sampleSlideEl : SlideEl :=
  { style := { backgroundImage := [], backgroundSize := [], backgroundPosition := []
               backgroundRepeat := [] }
    content := none }

/-- A modal that already carries the data-enhanced attribute. -/
def sampleModal : ModalEl :=
  { dataEnhanced := true, keydownListeners := 1, closeHandlers := 1,
    content := { title := none, image := none, hasTags := false, hasSections := false } }

/-- A nav breadcrumb anchor to a known category page. -/
def sampleAnchor : AnchorEl :=
  { inNav := true, href := lc "/content/financial-information",
    text := lc " Financial Information " }

/-- The heading texts of an events page showing July 2025. -/
def sampleHeadings : List (List Char) := [lc "Events Calendar", lc "July 2025"]

/-- A current date later than the displayed month. -/
def sampleToday : SimpleDate := { month := 10, year := 2026 }

/-! ## Theorems -/

theorem digitVal_ofNat (d : Nat) (h : d < 10) : digitVal (Char.ofNat (48 + d)) = d := by
  interval_cases d <;> rfl

theorem parseDigits_append_singleton (a : List Char) (c : Char) :
    parseDigits (a ++ [c]) = 10 * parseDigits a + digitVal c := by
  simp [parseDigits, List.foldl_append]

theorem natToDigits_ne_nil (n : Nat) : natToDigits n ≠ [] := by
  rw [natToDigits, natToDigitsAux]
  split <;> simp

theorem natToDigitsAux_spec :
    ∀ (fuel n : Nat), n < fuel → parseDigits (natToDigitsAux n fuel) = n := by
  intro fuel
  induction fuel with
  | zero => intro n h; omega
  | succ fuel ih =>
    intro n h
    rw [natToDigitsAux]
    split
    · next h10 => simp [parseDigits, digitVal_ofNat n h10]
    · next h10 =>
      rw [parseDigits_append_singleton,
        ih (n / 10) (by omega),
        digitVal_ofNat (n % 10) (Nat.mod_lt n (by omega))]
      omega

theorem parseDigits_natToDigits (n : Nat) : parseDigits (natToDigits n) = n :=
  natToDigitsAux_spec (n + 1) n (by omega)

/-! Soundness facts about the date matcher, used to relate the test on the
trimmed text with the anchored replacement on the untrimmed text. -/

theorem stripPrefixCh_eq_append {p : List Char} :
    ∀ {s r : List Char}, stripPrefixCh p s = some r → s = p ++ r := by
  induction p with
  | nil =>
    intro s r h
    simp only [stripPrefixCh, Option.some.injEq] at h
    simp [h]
  | cons a ps ih =>
    intro s r h
    cases s with
    | nil => simp [stripPrefixCh] at h
    | cons c cs =>
      simp only [stripPrefixCh] at h
      split at h
      · next heq => subst heq; simpa using ih h
      · exact absurd h (by simp)

theorem firstPrefixMatch_sound {ws : List (List Char)} :
    ∀ {s w r : List Char}, firstPrefixMatch ws s = some (w, r) → w ∈ ws ∧ s = w ++ r := by
  induction ws with
  | nil => intro s w r h; simp [firstPrefixMatch] at h
  | cons w0 rest ih =>
    intro s w r h
    simp only [firstPrefixMatch] at h
    cases hs : stripPrefixCh w0 s with
    | some r0 =>
      rw [hs] at h
      simp only [Option.some.injEq, Prod.mk.injEq] at h
      obtain ⟨rfl, rfl⟩ := h
      exact ⟨List.mem_cons_self _ _, stripPrefixCh_eq_append hs⟩
    | none =>
      rw [hs] at h
      obtain ⟨hm, he⟩ := ih h
      exact ⟨List.mem_cons_of_mem _ hm, he⟩

theorem reqRun_sound {p : Char → Bool} {s t r : List Char}
    (h : reqRun p s = some (t, r)) : s = t ++ r := by
  simp only [reqRun] at h
  split at h
  · exact absurd h (by simp)
  · simp only [Option.some.injEq, Prod.mk.injEq] at h
    obtain ⟨rfl, rfl⟩ := h
    exact (List.takeWhile_append_dropWhile p s).symm

theorem reqDigits12_sound {s d r : List Char}
    (h : reqDigits12 s = some (d, r)) : s = d ++ r := by
  simp only [reqDigits12] at h
  split at h
  · exact absurd h (by simp)
  · split at h
    · exact absurd h (by simp)
    · simp only [Option.some.injEq, Prod.mk.injEq] at h
      obtain ⟨rfl, rfl⟩ := h
      exact (List.takeWhile_append_dropWhile isDigitCh s).symm

theorem reqYear4_sound {s y : List Char} (h : reqYear4 s = some y) :
    y = s ∧ s.length = 4 ∧ s.all isDigitCh = true := by
  simp only [reqYear4] at h
  split at h
  · next hc =>
    simp only [Option.some.injEq] at h
    simp only [Bool.and_eq_true, decide_eq_true_eq] at hc
    exact ⟨h.symm, hc.1, hc.2⟩
  · exact absurd h (by simp)

/-- Every weekday alternative is nonempty and starts with a non-whitespace
character. -/
theorem weekdayNames_head_ok :
    weekdayNames.all (fun w => !w.isEmpty && !isWsp w.headI) = true := by decide

theorem isDigitCh_not_wsp {c : Char} (h : isDigitCh c = true) : isWsp c = false := by
  have hm : c ∈ digitChars := List.mem_of_elem_eq_true h
  fin_cases hm <;> decide

theorem dropWhile_eq_self_of_head {p : Char → Bool} {s : List Char}
    (h : ∀ c, s.head? = some c → p c = false) : s.dropWhile p = s := by
  cases s with
  | nil => rfl
  | cons a t => simp [List.dropWhile_cons, h a rfl]

theorem jsTrim_eq_self {s : List Char}
    (h1 : ∀ c, s.head? = some c → isWsp c = false)
    (h2 : ∀ c, s.getLast? = some c → isWsp c = false) : jsTrim s = s := by
  unfold jsTrim
  rw [dropWhile_eq_self_of_head h1]
  rw [dropWhile_eq_self_of_head (fun c hc => h2 c (List.head?_reverse s ▸ hc))]
  exact List.reverse_reverse s

/-- A successful anchored match leaves nothing to trim: the matched string
starts with a weekday letter and ends with a year digit, so trimming it is the
identity.  Consequently an untrimmed text with surrounding whitespace can never
match the anchored pattern. -/
theorem dateMatch_some_trim {s : List Char} {p : List Char × List Char}
    (h : dateMatch s = some p) : jsTrim s = s := by
  rw [dateMatch] at h
  split at h
  · simp at h
  · next w r1 hfp =>
    split at h
    · simp at h
    · next sp1 r2 h1 =>
      split at h
      · simp at h
      · next d r3 h2 =>
        split at h
        · simp at h
        · next sp2 r4 h3 =>
          split at h
          · simp at h
          · next mo r5 h4 =>
            split at h
            · simp at h
            · next sp3 r6 h5 =>
              split at h
              · simp at h
              · next y h6 =>
                obtain ⟨hwmem, hs1⟩ := firstPrefixMatch_sound hfp
                obtain ⟨rfl, hlen, hdig⟩ := reqYear4_sound h6
                have hs : s = w ++ sp1 ++ d ++ sp2 ++ mo ++ sp3 ++ y := by
                  rw [hs1, reqRun_sound h1, reqDigits12_sound h2, reqRun_sound h3,
                    reqRun_sound h4, reqRun_sound h5]
                  simp [List.append_assoc]
                have hyne : y ≠ [] := by
                  intro hn; rw [hn] at hlen; simp at hlen
                have hwfact := List.all_eq_true.mp weekdayNames_head_ok w hwmem
                simp only [Bool.and_eq_true, Bool.not_eq_true'] at hwfact
                apply jsTrim_eq_self
                · intro c hc
                  cases w with
                  | nil => simp at hwfact
                  | cons a wt =>
                    rw [hs] at hc
                    simp only [List.cons_append, List.head?_cons, Option.some.injEq] at hc
                    subst hc
                    simpa [List.headI] using hwfact.2
                · intro c hc
                  rw [hs] at hc
                  rw [show w ++ sp1 ++ d ++ sp2 ++ mo ++ sp3 ++ y =
                      (w ++ sp1 ++ d ++ sp2 ++ mo ++ sp3) ++ y by simp [List.append_assoc]] at hc
                  rw [List.getLast?_append_of_ne_nil _ hyne] at hc
                  have hcm : c ∈ y := List.mem_of_mem_getLast? hc
                  exact isDigitCh_not_wsp (List.all_eq_true.mp hdig c hcm)

theorem applyPairwise_nil_right (f : α → β → α) :
    ∀ es : List α, applyPairwise f es [] = es := by
  intro es
  induction es with
  | nil => rfl
  | cons e es ih => rw [applyPairwise, ih]

theorem applyPairwise_getElem?_ge (f : α → β → α) :
    ∀ (es : List α) (ds : List β) (i : Nat), ds.length ≤ i →
      (applyPairwise f es ds)[i]? = es[i]? := by
  intro es
  induction es with
  | nil => intro ds i _; simp [applyPairwise]
  | cons e es ih =>
    intro ds i hi
    cases ds with
    | nil => rw [applyPairwise_nil_right]
    | cons d ds =>
      cases i with
      | zero => simp at hi
      | succ j =>
        rw [applyPairwise]
        simp only [List.getElem?_cons_succ]
        exact ih ds j (by simpa using hi)

theorem applyPairwise_getElem?_lt (f : α → β → α) :
    ∀ (es : List α) (ds : List β) (i : Nat) (e : α) (d : β),
      es[i]? = some e → ds[i]? = some d →
      (applyPairwise f es ds)[i]? = some (f e d) := by
  intro es
  induction es with
  | nil => intro ds i e d he _; simp at he
  | cons e0 es ih =>
    intro ds i e d he hd
    cases ds with
    | nil => simp at hd
    | cons d0 ds =>
      cases i with
      | zero =>
        simp only [List.getElem?_cons_zero, Option.some.injEq] at he hd
        subst he; subst hd
        rw [applyPairwise]
        simp
      | succ j =>
        simp only [List.getElem?_cons_succ] at he hd
        rw [applyPairwise]
        simp only [List.getElem?_cons_succ]
        exact ih ds j e d he hd

theorem applyPairwise_idem (f : α → β → α)
    (hf : ∀ e d, f (f e d) d = f e d) :
    ∀ (es : List α) (ds : List β),
      applyPairwise f (applyPairwise f es ds) ds = applyPairwise f es ds := by
  intro es
  induction es with
  | nil => intro ds; cases ds <;> rfl
  | cons e es ih =>
    intro ds
    cases ds with
    | nil => rw [applyPairwise_nil_right, applyPairwise_nil_right]
    | cons d ds => rw [applyPairwise, applyPairwise, hf, ih]

theorem waitLoopCapped_empty (stream : Nat → List α) :
    ∀ (r a : Nat), (∀ n, a ≤ n → n < a + r → stream n = []) →
      waitLoopCapped stream a r = [] := by
  intro r
  induction r with
  | zero => intro a _; rfl
  | succ r ih =>
    intro a h
    rw [waitLoopCapped]
    rw [h a (le_refl a) (by omega)]
    simp only [List.length_nil, lt_irrefl, if_false]
    exact ih (a + 1) (fun n h1 h2 => h n (by omega) (by omega))

theorem waitLoopNoCap_empty_stream :
    ∀ (fuel a : Nat), waitLoopNoCap emptyStream a fuel = none := by
  intro fuel
  induction fuel with
  | zero => intro a; rfl
  | succ r ih =>
    intro a
    rw [waitLoopNoCap]
    simp only [emptyStream, List.length_nil, lt_irrefl, if_false]
    exact ih (a + 1)

theorem monthMap_monthName (m : Nat) (h1 : 1 ≤ m) (h2 : m ≤ 12) :
    monthMap (monthName m) = some m := by
  interval_cases m <;> decide

theorem monthMap_range {s : List Char} {m : Nat} (h : monthMap s = some m) :
    1 ≤ m ∧ m ≤ 12 := by
  simp only [monthMap, Option.map_eq_some'] at h
  obtain ⟨p, hp, rfl⟩ := h
  have hm := List.mem_of_find?_eq_some hp
  fin_cases hm <;> simp

/-! ## Helper lemmas for the claims -/

theorem applySlide_idem (e : SlideEl) (d : Slide) :
    applySlide (applySlide e d) d = applySlide e d := by
  obtain ⟨st, co⟩ := e
  cases co with
  | none => by_cases himg : jsTruthyS d.image <;> simp [applySlide, himg]
  | some c =>
    obtain ⟨ci, cb⟩ := c
    by_cases himg : jsTruthyS d.image <;>
    by_cases hi : jsTruthyS d.introduction <;>
    by_cases ht : jsTruthyS d.button_text <;>
    by_cases hu : jsTruthyS d.button_url <;>
    cases ci <;> cases cb <;>
    simp_all [applySlide]

theorem applyEventImageV3_idem (e : EventElV3) (d : Event) :
    applyEventImageV3 (applyEventImageV3 e d) d = applyEventImageV3 e d := by
  by_cases himg : jsTruthyS d.image <;>
  cases htag : e.categoryTag <;>
  simp_all [applyEventImageV3]

theorem prefix_content_ne {s : List Char}
    (h : (lc "/content/").isPrefixOf s = true) : (s == lc "/content") = false := by
  cases hb : s == lc "/content"
  · rfl
  · exfalso
    have hs : s = lc "/content" := by simpa using hb
    rw [hs] at h
    exact absurd h (by decide)

theorem containsSub_of_prefix {p s : List Char} (h : p.isPrefixOf s = true) :
    containsSub p s = true := by
  cases s with
  | nil =>
    cases p with
    | nil => rfl
    | cons x xs => simp [List.isPrefixOf] at h
  | cons c cs =>
    rw [containsSub]
    simp [h]

theorem monthYearAt_year_ne_nil {s : List Char} {my : List Char × List Char}
    (h : monthYearAt s = some my) : my.2 ≠ [] := by
  rw [monthYearAt] at h
  split at h
  · simp at h
  · split at h
    · split at h
      · simp only [Option.some.injEq] at h
        rw [← h]
        simp
      · simp at h
    · simp at h

theorem findMonthYear_year_ne_nil :
    ∀ {s : List Char} {my : List Char × List Char},
      findMonthYear s = some my → my.2 ≠ [] := by
  intro s
  induction s with
  | nil => intro my h; simp [findMonthYear] at h
  | cons c cs ih =>
    intro my h
    rw [findMonthYear] at h
    cases ha : monthYearAt (c :: cs) with
    | some r =>
      rw [ha] at h
      simp only [Option.some.injEq] at h
      subst h
      exact monthYearAt_year_ne_nil ha
    | none =>
      rw [ha] at h
      exact ih h

theorem detectMonthYear_year_ne_nil :
    ∀ {cands : List (List Char)} {my : List Char × List Char},
      detectMonthYear cands = some my → my.2 ≠ [] := by
  intro cands
  induction cands with
  | nil => intro my h; simp [detectMonthYear] at h
  | cons t ts ih =>
    intro my h
    rw [detectMonthYear] at h
    cases ha : findMonthYear t with
    | some r =>
      rw [ha] at h
      simp only [Option.some.injEq] at h
      subst h
      exact findMonthYear_year_ne_nil ha
    | none =>
      rw [ha] at h
      exact ih h

/-! ## The claims -/

/-- C1: for every run of the slider fix, if the fetch of /api/homepage/slides
rejects, returns a non-OK response, or its body fails to parse as JSON, then
fetchSlidesData returns the empty array, the failure is only logged,
initSliderFix returns without calling applySlideData, and no DOM slide is
mutated by the script. -/
theorem C1_slider_fetch_failure_is_noop (dom : List SlideEl) (f : SlidesFetch)
    (h : slidesFetchFailed f = true) :
    fetchSlidesData f = [] ∧ initSliderFix dom f = dom := by
  cases f with
  | ok data => simp [slidesFetchFailed] at h
  | fetchReject => exact ⟨rfl, by simp [initSliderFix, fetchSlidesData]⟩
  | respNotOk n => exact ⟨rfl, by simp [initSliderFix, fetchSlidesData]⟩
  | jsonParseFail => exact ⟨rfl, by simp [initSliderFix, fetchSlidesData]⟩

/-- C1 witness: a rejected fetch leaves a one-slide DOM untouched. -/
theorem C1_witness :
    fetchSlidesData SlidesFetch.fetchReject = [] ∧
    initSliderFix [sampleSlideEl] SlidesFetch.fetchReject = [sampleSlideEl] :=
  C1_slider_fetch_failure_is_noop [sampleSlideEl] SlidesFetch.fetchReject rfl

/-- The dead remainder of fetchEventsData's try block builds the intended
query: month and year taken from the displayed month/year heading (falling
back to the current date when no heading matches), include_past exactly when
that month is strictly earlier than the current calendar month, and the
events array of the JSON response.  The hypothesis states that the heading
that matches the month/year pattern, if any, names an actual month.
Execution never reaches this code (see C2_fetchEventsData_tdz_no_request). -/
theorem buildEventsQuery_spec (cands : List (List Char)) (today : SimpleDate)
    (hm1 : 1 ≤ today.month) (hm2 : today.month ≤ 12)
    (hdet : match detectMonthYear cands with
            | some my => (monthMap my.1).isSome = true
            | none => True) :
    ∃ m : Nat,
      monthMap (getCurrentMonthYear cands today).1 = some m ∧
      (buildEventsQuery cands today).month = some m ∧
      (buildEventsQuery cands today).year = some (getCurrentMonthYear cands today).2 ∧
      ((buildEventsQuery cands today).includePast = true ↔
        (parseDigits (getCurrentMonthYear cands today).2 < today.year ∨
         (parseDigits (getCurrentMonthYear cands today).2 = today.year ∧ m < today.month))) ∧
      (detectMonthYear cands = none →
        m = today.month ∧ parseDigits (getCurrentMonthYear cands today).2 = today.year) ∧
      (∀ evs : List Event, eventsOfResponse (some evs) = evs) := by
  cases hd : detectMonthYear cands with
  | some my =>
    rw [hd] at hdet
    obtain ⟨m, hm⟩ := Option.isSome_iff_exists.mp hdet
    have hgc : getCurrentMonthYear cands today = my := by
      rw [getCurrentMonthYear, hd]; rfl
    have hm0 : m ≠ 0 := by have := (monthMap_range hm).1; omega
    have hyne : my.2 ≠ [] := detectMonthYear_year_ne_nil hd
    have hye : my.2.isEmpty = false := by
      cases hys : my.2 with
      | nil => exact absurd hys hyne
      | cons a l => rfl
    refine ⟨m, by rw [hgc]; exact hm, ?_, ?_, ?_, ?_, fun evs => rfl⟩
    · simp only [buildEventsQuery, hgc, hm]
      simp [hm0]
    · simp only [buildEventsQuery, hgc, hm, hye]
      simp
    · simp only [buildEventsQuery, hgc, hm]
      simp [Bool.or_eq_true, Bool.and_eq_true, beq_iff_eq, decide_eq_true_eq]
    · intro hnone
      simp at hnone
  | none =>
    have hgc : getCurrentMonthYear cands today =
        (monthName today.month, natToDigits today.year) := by
      rw [getCurrentMonthYear, hd]; rfl
    have hm : monthMap (getCurrentMonthYear cands today).1 = some today.month := by
      rw [hgc]; exact monthMap_monthName today.month hm1 hm2
    have hm0 : today.month ≠ 0 := by omega
    have hye : (natToDigits today.year).isEmpty = false := by
      cases hys : natToDigits today.year with
      | nil => exact absurd hys (natToDigits_ne_nil today.year)
      | cons a l => rfl
    have hpd : parseDigits (getCurrentMonthYear cands today).2 = today.year := by
      rw [hgc]; exact parseDigits_natToDigits today.year
    refine ⟨today.month, hm, ?_, ?_, ?_, fun _ => ⟨rfl, hpd⟩, fun evs => rfl⟩
    · simp only [buildEventsQuery, hgc]
      rw [monthMap_monthName today.month hm1 hm2]
      simp [hm0]
    · simp only [buildEventsQuery, hgc, hye]
      simp
    · simp only [buildEventsQuery, hgc]
      rw [monthMap_monthName today.month hm1 hm2,
        parseDigits_natToDigits today.year]
      simp

/-- Concrete check of buildEventsQuery_spec: on a page headed July 2025,
seen from October 2026, the dead code would have sent month=7, year=2025 and
include_past. -/
theorem buildEventsQuery_spec_check :
    ∃ m : Nat,
      monthMap (getCurrentMonthYear sampleHeadings sampleToday).1 = some m ∧
      (buildEventsQuery sampleHeadings sampleToday).month = some m ∧
      (buildEventsQuery sampleHeadings sampleToday).year =
        some (getCurrentMonthYear sampleHeadings sampleToday).2 ∧
      ((buildEventsQuery sampleHeadings sampleToday).includePast = true ↔
        (parseDigits (getCurrentMonthYear sampleHeadings sampleToday).2 < sampleToday.year ∨
         (parseDigits (getCurrentMonthYear sampleHeadings sampleToday).2 = sampleToday.year ∧
          m < sampleToday.month))) ∧
      (detectMonthYear sampleHeadings = none →
        m = sampleToday.month ∧
        parseDigits (getCurrentMonthYear sampleHeadings sampleToday).2 = sampleToday.year) ∧
      (∀ evs : List Event, eventsOfResponse (some evs) = evs) :=
  buildEventsQuery_spec sampleHeadings sampleToday (by decide) (by decide)
    (by show (monthMap (lc "July")).isSome = true; decide)

/-- The doubled-backslash heading pattern of the frontend variant can only
match a text containing a literal backslash, so a real Month YYYY heading
never matches it and that variant always falls back to the current date. -/
theorem brokenFindMonthYear_no_backslash :
    ∀ {s : List Char}, backslashCh ∉ s → brokenFindMonthYear s = false := by
  intro s
  induction s with
  | nil => intro _; rfl
  | cons c cs ih =>
    intro h
    have hc : (c == backslashCh) = false := by
      simp only [beq_eq_false_iff_ne, ne_eq]
      intro he
      exact h (he ▸ List.mem_cons_self c cs)
    have hcs : backslashCh ∉ cs := fun hm => h (List.mem_cons_of_mem c hm)
    rw [brokenFindMonthYear, ih hcs]
    simp [brokenPatternAt, hc]

/-- C2 (code bug): fetchEventsData is specified to issue GET /api/events with
month and year from the displayed heading and include_past for past months,
returning the events array, and the dead remainder of its try block builds
exactly that query (buildEventsQuery_spec); but the write `currentMonth =
month` at the top of the same block resolves to the `const currentMonth`
declared below it, still in its temporal dead zone, so every call throws a
ReferenceError, issues no request and returns the empty array. -/
theorem C2_fetchEventsData_tdz_no_request (cands : List (List Char))
    (today : SimpleDate) (response : Option (List Event)) :
    (fetchEventsDataRun cands today response).request = none ∧
    (fetchEventsDataRun cands today response).result = [] :=
  ⟨rfl, rfl⟩

/-- C3 counterexample: the waitForSlides loop of meeting_page_dates.js (and
the waitForEvents loops of the v1 v2 v3 events fixes) has no attempt cap: on
a DOM in which the awaited elements never appear it is still unresolved after
every finite number of attempts, so it neither stops after a bounded number
of retries nor resolves with the empty collection. -/
theorem C3_counterexample : uncappedPollingNeverResolves :=
  fun fuel start => waitLoopNoCap_empty_stream fuel start

/-- C3 amended: the capped loops, waitForSlides of slider-fix.js (50
attempts) and waitForEvents of the v5/frontend events fix (20 retries),
resolve with the empty collection when the elements are absent at every
attempt within the cap; the polling loops of the earlier scripts have no cap
and never resolve on a DOM in which the elements never appear. -/
theorem C3_amended_polling (stream : Nat → List Nat) :
    ((∀ n, n ≤ 50 → stream n = []) → waitForSlidesRun stream = []) ∧
    ((∀ n, n ≤ 20 → stream n = []) → waitForEventsRun stream = []) ∧
    uncappedPollingNeverResolves := by
  refine ⟨fun h => ?_, fun h => ?_, fun fuel start => waitLoopNoCap_empty_stream fuel start⟩
  · exact waitLoopCapped_empty stream 50 1 (fun n h1 h2 => h n (by omega))
  · exact waitLoopCapped_empty stream 20 1 (fun n h1 h2 => h n (by omega))

/-- C3 witness: on the always-empty DOM both capped loops resolve empty. -/
theorem C3_witness :
    waitForSlidesRun (fun _ => ([] : List Nat)) = [] ∧
    waitForEventsRun (fun _ => ([] : List Nat)) = [] :=
  ⟨(C3_amended_polling (fun _ => [])).1 (fun _ _ => rfl),
   (C3_amended_polling (fun _ => [])).2.1 (fun _ _ => rfl)⟩

/-- C4 counterexample: an element whose trimmed text matches the date pattern
but which carries leading whitespace passes the test, yet no comma is
inserted: the text is returned exactly as it was, refuting the claim that the
comma is inserted exactly when the trimmed text matches. -/
theorem C4_counterexample :
    (dateMatch (jsTrim paddedDateText)).isSome = true ∧
    fixDateText paddedDateText = paddedDateText ∧
    paddedDateText.contains ',' = false := by decide

/-- C4 amended: fixDateFormatting inserts the comma directly after the
weekday name exactly when the whole untrimmed element text matches the
anchored pattern; every other element, including one whose trimmed text
matches but which carries surrounding whitespace, keeps its text unchanged. -/
theorem C4_amended_fixDateText (t : List Char) :
    fixDateText t =
      match dateMatch t with
      | some p => p.1 ++ lc ", " ++ p.2
      | none => t := by
  cases hm : dateMatch t with
  | some p =>
    have htrim := dateMatch_some_trim hm
    rw [fixDateText, htrim, hm]
    simp
  | none =>
    rw [fixDateText]
    split
    · simp [hm]
    · rfl

/-- C10: for every element whose text is a matching date surrounded by
whitespace, the pattern test on the trimmed text succeeds, but the anchored
replacement applied to the untrimmed text matches nothing, so the element's
text is reassigned its original value and no comma is inserted. -/
theorem C10_padded_date_unchanged (t : List Char)
    (hpad : jsTrim t ≠ t) (htest : (dateMatch (jsTrim t)).isSome = true) :
    dateMatch t = none ∧ fixDateText t = t := by
  have hnone : dateMatch t = none := by
    cases hm : dateMatch t with
    | none => rfl
    | some p => exact absurd (dateMatch_some_trim hm) hpad
  refine ⟨hnone, ?_⟩
  rw [fixDateText]
  split <;> simp [hnone]

/-- C10 witness: the padded date text is left unchanged. -/
theorem C10_witness :
    dateMatch paddedDateText = none ∧ fixDateText paddedDateText = paddedDateText :=
  C10_padded_date_unchanged paddedDateText (by decide) (by decide)

/-- C5 counterexample: applyEventImages of the v2 events fix appends a fresh
category tag to the card on every run, so running it twice on the same card
and data differs from running it once. -/
theorem C5_counterexample :
    applyEventImagesV2 (applyEventImagesV2 [sampleCardV2] [sampleFairEvent]) [sampleFairEvent] ≠
      applyEventImagesV2 [sampleCardV2] [sampleFairEvent] := by decide

/-- C5 amended: re-running applySlideData of the slider fix and
applyEventImages of the v3 events fix on their own output is a no-op (their
injections are guarded by presence checks), but applyEventImages of the v2
events fix is not idempotent: each run appends a duplicate category tag. -/
theorem C5_amended_idempotence :
    (∀ (slides : List SlideEl) (ds : List Slide),
      applySlideData (applySlideData slides ds) ds = applySlideData slides ds) ∧
    (∀ (elems : List EventElV3) (ds : List Event),
      applyEventImagesV3 (applyEventImagesV3 elems ds) ds = applyEventImagesV3 elems ds) ∧
    applyEventImagesV2 (applyEventImagesV2 [sampleCardV2] [sampleFairEvent]) [sampleFairEvent] ≠
      applyEventImagesV2 [sampleCardV2] [sampleFairEvent] :=
  ⟨fun slides ds => applyPairwise_idem applySlide applySlide_idem slides ds,
   fun elems ds => applyPairwise_idem applyEventImageV3 applyEventImageV3_idem elems ds,
   by decide⟩

/-- C6 counterexample: addCategoryTag of events-fix.js interpolates a missing
category color directly into the tag style, producing the text undefined
rather than any fixed fallback color. -/
theorem C6_counterexample :
    (addCategoryTagV1 colorlessCategory).color = lc "undefined" ∧
    lc "undefined" ≠ lc "#3498db" ∧
    lc "undefined" ≠ lc "#007bff" := by decide

/-- C6 amended: the v5 events fix defaults a missing category color to
#3498db and the frontend events fix to #007bff, and the modal details render
a missing date or location as Date TBA / Location TBA; but addCategoryTag of
the original events-fix.js has no fallback and renders the missing color as
the interpolated text undefined. -/
theorem C6_amended_defaults :
    (∀ cat : EventCategory, cat.color = none → (addCategoryTagV5 cat).color = lc "#3498db") ∧
    (∀ cat : EventCategory, cat.color = none → (frontendCategoryTag cat).color = lc "#007bff") ∧
    (∀ fmt : List Char → List Char, modalDateCell fmt none = lc "Date TBA") ∧
    modalLocationCell none = lc "Location TBA" ∧
    (addCategoryTagV1 colorlessCategory).color = lc "undefined" := by
  refine ⟨fun cat hc => ?_, fun cat hc => ?_, fun fmt => rfl, rfl, by decide⟩
  · simp [addCategoryTagV5, jsOrS, jsTruthyS, hc]
  · simp [frontendCategoryTag, jsOrS, jsTruthyS, hc]

/-- C6 witness: the colorless category takes the fallback colors in the v5
and frontend scripts. -/
theorem C6_witness :
    (addCategoryTagV5 colorlessCategory).color = lc "#3498db" ∧
    (frontendCategoryTag colorlessCategory).color = lc "#007bff" :=
  ⟨C6_amended_defaults.1 colorlessCategory rfl,
   C6_amended_defaults.2.1 colorlessCategory rfl⟩

/-- C7: fixBreadcrumbLinks rewrites the href of every nav anchor whose href
begins with /content/: to the content-hub anchor of its category when the
trimmed link text is one of the five known category names, to /content for
any other such link whose URL has a non-empty final path segment, leaving a
link with an empty final segment untouched; anchors not matching the selector
are left unchanged. -/
theorem C7_fixBreadcrumbLink (a : AnchorEl) :
    (a.inNav = true → (lc "/content/").isPrefixOf a.href = true →
      ((jsTrim a.text = lc "Financial Information" →
          (fixBreadcrumbLink a).href = lc "/content#category-5") ∧
       (jsTrim a.text = lc "Policies and Important Documents" →
          (fixBreadcrumbLink a).href = lc "/content#category-1") ∧
       (jsTrim a.text = lc "Business Plan" →
          (fixBreadcrumbLink a).href = lc "/content#category-7") ∧
       (jsTrim a.text = lc "Council Information" →
          (fixBreadcrumbLink a).href = lc "/content#category-2") ∧
       (jsTrim a.text = lc "Reporting Problems" →
          (fixBreadcrumbLink a).href = lc "/content#category-4") ∧
       (categoryMap (jsTrim a.text) = none →
          ((jsSplitSlash a.href).getLastD []).isEmpty = false →
          (fixBreadcrumbLink a).href = lc "/content") ∧
       (categoryMap (jsTrim a.text) = none →
          ((jsSplitSlash a.href).getLastD []).isEmpty = true →
          fixBreadcrumbLink a = a))) ∧
    (¬(a.inNav = true ∧ (lc "/content/").isPrefixOf a.href = true) →
      fixBreadcrumbLink a = a) := by
  constructor
  · intro hin hpre
    have hne := prefix_content_ne hpre
    have hcs := containsSub_of_prefix hpre
    refine ⟨?_, ?_, ?_, ?_, ?_, ?_, ?_⟩
    · intro hname
      have hcm : categoryMap (jsTrim a.text) = some (lc "category-5") := by
        rw [hname]; decide
      rw [fixBreadcrumbLink]
      simp [hin, hpre, hne, hcs, hcm]
      decide
    · intro hname
      have hcm : categoryMap (jsTrim a.text) = some (lc "category-1") := by
        rw [hname]; decide
      rw [fixBreadcrumbLink]
      simp [hin, hpre, hne, hcs, hcm]
      decide
    · intro hname
      have hcm : categoryMap (jsTrim a.text) = some (lc "category-7") := by
        rw [hname]; decide
      rw [fixBreadcrumbLink]
      simp [hin, hpre, hne, hcs, hcm]
      decide
    · intro hname
      have hcm : categoryMap (jsTrim a.text) = some (lc "category-2") := by
        rw [hname]; decide
      rw [fixBreadcrumbLink]
      simp [hin, hpre, hne, hcs, hcm]
      decide
    · intro hname
      have hcm : categoryMap (jsTrim a.text) = some (lc "category-4") := by
        rw [hname]; decide
      rw [fixBreadcrumbLink]
      simp [hin, hpre, hne, hcs, hcm]
      decide
    · intro hcm hslug
      simp only [List.isEmpty_eq_false, List.getLastD_eq_getLast?] at hslug
      rw [fixBreadcrumbLink]
      simp [hin, hpre, hne, hcs, hcm, hslug]
    · intro hcm hslug
      simp only [List.isEmpty_iff, List.getLastD_eq_getLast?] at hslug
      rw [fixBreadcrumbLink]
      simp [hin, hpre, hne, hcs, hcm, hslug]
  · intro hno
    rw [fixBreadcrumbLink]
    have hcond : (a.inNav && (lc "/content/").isPrefixOf a.href) = false := by
      cases h1 : a.inNav
      · rfl
      · cases h2 : (lc "/content/").isPrefixOf a.href
        · rfl
        · exact absurd ⟨h1, h2⟩ hno
    rw [hcond]
    simp

/-- C7 witness: the Financial Information breadcrumb is rewritten to its
content-hub anchor. -/
theorem C7_witness :
    (fixBreadcrumbLink sampleAnchor).href = lc "/content#category-5" :=
  ((C7_fixBreadcrumbLink sampleAnchor).1 rfl (by decide)).1 (by decide)

/-- C8: enhanceModal sets the data-enhanced attribute on its first invocation
for a modal; any later invocation on that same modal returns it unchanged and
registers no further listeners, and a modal already carrying the attribute is
returned exactly as it is. -/
theorem C8_enhanceModal_once (m : ModalEl) (f1 f2 : Option Event) :
    (enhanceModal m f1).dataEnhanced = true ∧
    enhanceModal (enhanceModal m f1) f2 = enhanceModal m f1 ∧
    (m.dataEnhanced = true → enhanceModal m f1 = m) := by
  by_cases h : m.dataEnhanced = true
  · simp [enhanceModal, h]
  · simp only [Bool.not_eq_true] at h
    simp [enhanceModal, h]

/-- C8 witness: a modal already marked data-enhanced is returned as it is. -/
theorem C8_witness : enhanceModal sampleModal none = sampleModal :=
  (C8_enhanceModal_once sampleModal none none).2.2 rfl

/-- C9: applySlideData, applyEventData (v5) and applyEventImages (v3) pair
element i with record i, and every element at an index with no corresponding
record is left entirely unmodified. -/
theorem C9_apply_pairing_frame :
    (∀ (slides : List SlideEl) (ds : List Slide) (i : Nat),
      ds.length ≤ i → (applySlideData slides ds)[i]? = slides[i]?) ∧
    (∀ (slides : List SlideEl) (ds : List Slide) (i : Nat) (e : SlideEl) (d : Slide),
      slides[i]? = some e → ds[i]? = some d →
      (applySlideData slides ds)[i]? = some (applySlide e d)) ∧
    (∀ (cards : List EventElV5) (ds : List Event) (i : Nat),
      ds.length ≤ i → (applyEventData cards ds)[i]? = cards[i]?) ∧
    (∀ (cards : List EventElV5) (ds : List Event) (i : Nat) (e : EventElV5) (d : Event),
      cards[i]? = some e → ds[i]? = some d →
      (applyEventData cards ds)[i]? = some (applyEventOneV5 e d)) ∧
    (∀ (cards : List EventElV3) (ds : List Event) (i : Nat),
      ds.length ≤ i → (applyEventImagesV3 cards ds)[i]? = cards[i]?) ∧
    (∀ (cards : List EventElV3) (ds : List Event) (i : Nat) (e : EventElV3) (d : Event),
      cards[i]? = some e → ds[i]? = some d →
      (applyEventImagesV3 cards ds)[i]? = some (applyEventImageV3 e d)) :=
  ⟨fun es ds i h => applyPairwise_getElem?_ge applySlide es ds i h,
   fun es ds i e d he hd => applyPairwise_getElem?_lt applySlide es ds i e d he hd,
   fun es ds i h => applyPairwise_getElem?_ge applyEventOneV5 es ds i h,
   fun es ds i e d he hd => applyPairwise_getElem?_lt applyEventOneV5 es ds i e d he hd,
   fun es ds i h => applyPairwise_getElem?_ge applyEventImageV3 es ds i h,
   fun es ds i e d he hd => applyPairwise_getElem?_lt applyEventImageV3 es ds i e d he hd⟩

/-- C9 witness: a slide with no record keeps its state. -/
theorem C9_witness :
    (applySlideData [sampleSlideEl] [])[0]? = [sampleSlideEl][0]? :=
  C9_apply_pairing_frame.1 [sampleSlideEl] [] 0 (by decide)
